import Mathlib

/-!
Verification of the AudioCheck repository: a transcription batch job
(`audiocheck_transcriber.py`) and a review-session GUI (`audiocheck_gui.py`).

The embedding is shallow: the per-row batch logic, the review-session filter,
sort, selection, and mutation handlers are translated into executable Lean
functions.  External collaborators are parameters:
* the filesystem is a predicate `String → Bool` (`os.path.exists`),
* the speech engine is `String → Except String String` (`model.transcribe`,
  an exception becoming `Except.error` carrying the message),
* the `difflib.SequenceMatcher(None, a, b).ratio()` routine is an abstract
  function `ratioFn : String → String → ℚ` (scores are modelled as rationals;
  the ratio `2 * M / T` is a rational of the two lengths).

Python string primitives are modelled over the character list of a `String`:
`str.lower` maps `Char.toLower` (ASCII case table, adequate for the inputs
considered here), `str.strip` drops leading/trailing whitespace, the regex
class `\w` is alphanumeric-or-underscore, `\s` is whitespace.
-/

namespace AudioCheck

/-- Models Python `str.lower()`: lower-case every character. -/
def lowerStr (s : String) : String :=
  String.mk (s.data.map Char.toLower)

/-- Models Python `str.strip()`: drop leading and trailing whitespace. -/
def stripStr (s : String) : String :=
  String.mk (((s.data.dropWhile Char.isWhitespace).reverse.dropWhile Char.isWhitespace).reverse)

/-- Models the Python idiom `s.lower().strip()` used before scoring. -/
def pyNormalize (s : String) : String :=
  stripStr (lowerStr s)

/-- Models the Python regex class `\w` (a word character): alphanumeric or
underscore.  Note that `_` is a word character even though it is neither
alphanumeric nor whitespace. -/
def isWordChar (c : Char) : Bool :=
  c.isAlphanum || c = '_'

/-- Models `audiocheck_transcriber.py` lines 102-103:
`raw_text = result["text"].lower()` followed by
`re.sub(r'[^\w\s]', '', raw_text)` — lower-case, then delete every character
that is neither a word character nor whitespace. -/
def cleanText (raw : String) : String :=
  String.mk ((lowerStr raw).data.filter (fun c => isWordChar c || c.isWhitespace))

/-- Models `.replace('\\', '/')` applied to the manifest's `audio_filename`
("Fix windows paths", transcriber line 81): every backslash becomes a slash. -/
def normSlashes (s : String) : String :=
  String.mk (s.data.map (fun c => if c = '\\' then '/' else c))

/-- One row of the input manifest `{pid}_data.csv`, as read by
`csv.DictReader` (all cells are strings). -/
structure ManifestRow where
  audio_filename : String
  phrase : String
  block : String
  trial : String
  deriving DecidableEq, Inhabited

/-- One row of the output table `{pid}_transcription_results.csv` produced by
the batch job (field order as in `fieldnames`, transcriber line 135). -/
structure ResultRow where
  block : String
  trial : String
  audio_filename : String
  target_phrase : String
  transcribed_text : String
  similarity_score : ℚ
  error : String
  deriving DecidableEq, Inhabited

/-- The per-row body of the loop in `transcribe_and_compare`
(transcriber lines 80-127): normalize the path separators, check existence,
transcribe (an engine exception is recorded in `error`), clean the raw text,
score it against the target phrase only when both sides are non-empty, and
emit one result row.  `fsEx` models `os.path.exists`, `eng` the engine call,
`ratioFn` the `difflib` ratio. -/
def processRow (fsEx : String → Bool) (eng : String → Except String String)
    (ratioFn : String → String → ℚ) (row : ManifestRow) : ResultRow :=
  let path := normSlashes row.audio_filename
  let tr : String × String :=
    if fsEx path then
      match eng path with
      | Except.ok raw => (cleanText raw, "")
      | Except.error e => ("", "Error processing audio file: " ++ e)
    else
      ("", "Audio file not found")
  let score : ℚ :=
    if tr.1 ≠ "" ∧ row.phrase ≠ "" then
      ratioFn (pyNormalize tr.1) (pyNormalize row.phrase)
    else 0
  { block := row.block
    trial := row.trial
    audio_filename := path
    target_phrase := row.phrase
    transcribed_text := tr.1
    similarity_score := score
    error := tr.2 }

/-- The whole loop: `results` collects one row per manifest row, in order;
no row is skipped and no exception escapes a single iteration. -/
def processBatch (fsEx : String → Bool) (eng : String → Except String String)
    (ratioFn : String → String → ℚ) (rows : List ManifestRow) : List ResultRow :=
  rows.map (processRow fsEx eng ratioFn)

/-! ## Review session (`audiocheck_gui.py`) -/

/-- One row of the review session's in-memory table (after `load_data` has
ensured all ten columns exist; GUI lines 87-114).  `block` and `trial` are the
ordinal identifiers, the score is a rational in `[0, 1]`. -/
structure Record where
  block : Nat
  trial : Nat
  audio_filename : String
  target_phrase : String
  transcribed_text : String
  original_transcription : String
  similarity_score : ℚ
  manual_correct : Bool
  manual_reviewed : Bool
  error : String
  deriving DecidableEq, Inhabited

/-- Cell access `df.loc[i]` / `df.at[i, ...]` for a table stored as a list:
the dataframe index of a row is its position in the list. -/
def getRec (df : List Record) (i : Nat) : Record :=
  df.getD i default

/-- The filter mask of GUI lines 218-226: start from all-true; when the
similarity filter is on, keep `score < threshold OR manual_correct OR
manual_reviewed`; when hide-reviewed is on, additionally require
`NOT manual_reviewed`. -/
def passesMask (showLowConf hideReviewed : Bool) (threshold : ℚ) (r : Record) : Bool :=
  (if showLowConf then
      decide (r.similarity_score < threshold) || r.manual_correct || r.manual_reviewed
    else true)
  && (if hideReviewed then !r.manual_reviewed else true)

/-- The index list of `df[mask]` (GUI line 228): the dataframe indices, in
table order, of the rows that pass the mask. -/
def filteredIndices (showLowConf hideReviewed : Bool) (threshold : ℚ)
    (df : List Record) : List Nat :=
  (List.range df.length).filter (fun i => passesMask showLowConf hideReviewed threshold (getRec df i))

/-- The `sort_reviewed` helper column of GUI line 244: in priority mode the
leading sort key is `manual_reviewed` as an integer (unreviewed = 0 first);
in natural mode there is no leading key. -/
def revRank (priority : Bool) (r : Record) : Nat :=
  if priority && r.manual_reviewed then 1 else 0

/-- The comparison realised by `sort_values(['sort_reviewed', 'block',
'trial'])` (priority mode) or `sort_values(['block', 'trial'])` (natural
mode), GUI lines 242-248: lexicographic on (rank, block, trial), ascending. -/
def sortKeyLe (priority : Bool) (a b : Record) : Bool :=
  decide (revRank priority a < revRank priority b
    ∨ (revRank priority a = revRank priority b
      ∧ (a.block < b.block ∨ (a.block = b.block ∧ a.trial ≤ b.trial))))

/-- Ascending order on the `(block, trial)` key pair. -/
def blockTrialLe (a b : Record) : Prop :=
  a.block < b.block ∨ (a.block = b.block ∧ a.trial ≤ b.trial)

/-- `filtered_indices` = `filtered_df.sort_values(...).index.tolist()`
(GUI lines 242-248): the filtered dataframe indices sorted by the key of the
selected mode. -/
def sortIndices (df : List Record) (priority : Bool) (idxs : List Nat) : List Nat :=
  idxs.mergeSort (fun i j => sortKeyLe priority (getRec df i) (getRec df j))

/-- The selection-persistence step of GUI lines 259-260: if no selection is
held yet, or the held selection is not in `filtered_indices`, reset to
`filtered_indices[0]` (this code only runs when the list is non-empty;
line 252 stops earlier otherwise). -/
def resolveSelection (filtered : List Nat) (cur : Option Nat) : Nat :=
  match cur with
  | some i => if i ∈ filtered then i else filtered.headD 0
  | none => filtered.headD 0

/-- `st.session_state.data.at[sel, 'manual_reviewed'] = v` on the list table. -/
def setReviewed (df : List Record) (sel : Nat) (v : Bool) : List Record :=
  df.set sel { getRec df sel with manual_reviewed := v }

/-- The `update_reviewed` callback (GUI lines 352-370): write the new flag,
and when it is `true` scan `filtered_indices` forward from the position of the
selected index, selecting the first later entry whose (updated) table row has
`manual_reviewed` false; when the selected index is absent (`ValueError`) or
no such entry exists, the selection is unchanged.  Returns (new table, new
selection). -/
def updateReviewed (df : List Record) (filtered : List Nat) (sel : Nat)
    (newVal : Bool) : List Record × Nat :=
  let df' := setReviewed df sel newVal
  let nextSel :=
    if newVal then
      match filtered.indexOf? sel with
      | none => sel
      | some pos =>
        match (filtered.drop (pos + 1)).find? (fun i => !(getRec df' i).manual_reviewed) with
        | some nxt => nxt
        | none => sel
    else sel
  (df', nextSel)

/-- The `update_transcription` callback (GUI lines 320-337): store the new
text; recompute the score as `ratioFn` of the lower-cased stripped pair when
both the new text and the target phrase are non-empty, else `0.0`. -/
def updateTranscription (ratioFn : String → String → ℚ) (df : List Record)
    (sel : Nat) (newText : String) : List Record :=
  let target := (getRec df sel).target_phrase
  let newScore : ℚ :=
    if newText ≠ "" ∧ target ≠ "" then
      ratioFn (pyNormalize newText) (pyNormalize target)
    else 0
  df.set sel { getRec df sel with transcribed_text := newText, similarity_score := newScore }

/-! ## Schema migration on load (`load_data`, GUI lines 87-114)

A results file on disk may predate the reviewer columns.  A column is either
absent from the file (the `hasX` flag is false) or present, in which case each
cell holds `some` value or `none` (a NaN cell). -/

/-- One row of a results file as read from disk, before migration. -/
structure RawRow where
  block : Nat
  trial : Nat
  audio_filename : String
  target_phrase : String
  transcribed_text : String
  similarity_score : ℚ
  error : String
  manual_correct : Option Bool
  manual_reviewed : Option Bool
  original_transcription : Option String
  deriving DecidableEq, Inhabited

/-- A results table as read from disk: rows plus column-presence flags. -/
structure RawTable where
  rows : List RawRow
  hasManualCorrect : Bool
  hasManualReviewed : Bool
  hasOriginal : Bool
  deriving DecidableEq, Inhabited

/-- Per-row effect of `load_data`: an absent boolean column is created all
`False`; a present one is `fillna(False)` (NaN cells become `False`, others
keep their value); an absent `original_transcription` column is created as a
copy of `transcribed_text`, a present one is left untouched. -/
def migrateRow (hasC hasR hasO : Bool) (r : RawRow) : RawRow :=
  { r with
    manual_correct := some (if hasC then r.manual_correct.getD false else false)
    manual_reviewed := some (if hasR then r.manual_reviewed.getD false else false)
    original_transcription := if hasO then r.original_transcription else some r.transcribed_text }

/-- The schema-migration part of `load_data` (GUI lines 96-114): after it,
all three reviewer columns are present. -/
def loadMigrate (t : RawTable) : RawTable :=
  { rows := t.rows.map (migrateRow t.hasManualCorrect t.hasManualReviewed t.hasOriginal)
    hasManualCorrect := true
    hasManualReviewed := true
    hasOriginal := true }

/-! ## Participant discovery (`get_participants`, GUI lines 81-85) -/

/-- One entry of `os.listdir(data_dir)` together with its
`os.path.isdir(os.path.join(data_dir, d))` status. -/
structure DirEntry where
  name : String
  isDir : Bool
  deriving DecidableEq, Inhabited

/-- Models Python `str.isdigit()`: non-empty and every character a digit. -/
def isDigitName (s : String) : Bool :=
  decide (s ≠ "") && s.data.all Char.isDigit

/-- `get_participants` (GUI lines 81-85): empty when the data directory does
not exist, otherwise the directory entries that are directories with all-digit
names, `sorted` (ascending lexicographic string order, as Python `sorted`). -/
def getParticipants (dirExists : Bool) (entries : List DirEntry) : List String :=
  if dirExists then
    ((entries.filter (fun e => e.isDir && isDigitName e.name)).map DirEntry.name).mergeSort
      (fun a b => decide (a ≤ b))
  else []

/-! ## Helper lemmas -/

/-- `getD` through `map`, inside the bounds. -/
theorem getD_map_of_lt {α β : Type} (f : α → β) (l : List α) (i : Nat) (d : α) (d' : β)
    (h : i < l.length) : (l.map f).getD i d' = f (l.getD i d) := by
  rw [List.getD_eq_getElem?_getD, List.getD_eq_getElem?_getD, List.getElem?_map,
    List.getElem?_eq_getElem h]
  rfl

/-- Reading back the cell just written by `List.set`. -/
theorem getRec_set_self (df : List Record) (i : Nat) (r : Record) (hi : i < df.length) :
    getRec (df.set i r) i = r := by
  simp [getRec, List.getD_eq_getElem?_getD, List.getElem?_set_self hi]

/-- The head of a non-empty list is a member (in `headD` form). -/
theorem headD_mem_of_ne_nil (l : List Nat) (h : l ≠ []) : l.headD 0 ∈ l := by
  cases l with
  | nil => exact absurd rfl h
  | cons a t => exact List.mem_cons_self a t

/-- Python `list.index` on a list decomposed around the first occurrence. -/
theorem indexOf?_append_cons (front rest : List Nat) (sel : Nat) (h : sel ∉ front) :
    (front ++ sel :: rest).indexOf? sel = some front.length := by
  induction front with
  | nil => simp [List.indexOf?_cons]
  | cons a fr ih =>
    have h1 : sel ≠ a := fun e => h (e ▸ List.mem_cons_self a fr)
    have h2 : sel ∉ fr := fun m => h (List.mem_cons_of_mem a m)
    have hne : (a == sel) = false := by
      simp only [beq_eq_false_iff_ne]
      exact fun hEq => h1 hEq.symm
    simp [List.cons_append, List.indexOf?_cons, hne, ih h2]

/-- Dropping everything up to and including `sel` leaves `rest`. -/
theorem drop_after_sel (front rest : List Nat) (sel : Nat) :
    (front ++ sel :: rest).drop (front.length + 1) = rest := by
  have h : front ++ sel :: rest = (front ++ [sel]) ++ rest := by simp
  rw [h, List.drop_left' (by simp)]

/-! ## Claim theorems -/

/-- C2: with the similarity-threshold filter active (and the hide-reviewed
filter off, so that the threshold predicate is the active filter), a row index
is in the filtered sequence exactly when `similarity_score < t`, or
`manual_correct`, or `manual_reviewed`; in particular a row with
`manual_correct = true` and score `≥ t` is still included. -/
theorem threshold_filter_membership (df : List Record) (t : ℚ) (i : Nat)
    (hi : i < df.length) :
    (i ∈ filteredIndices true false t df ↔
      ((getRec df i).similarity_score < t ∨ (getRec df i).manual_correct = true
        ∨ (getRec df i).manual_reviewed = true))
    ∧ ((getRec df i).manual_correct = true → t ≤ (getRec df i).similarity_score →
        i ∈ filteredIndices true false t df) := by
  constructor
  · simp only [filteredIndices, List.mem_filter, List.mem_range, passesMask]
    simp [hi, or_assoc]
  · intro hc _
    simp [filteredIndices, List.mem_filter, List.mem_range, passesMask, hi, hc]

/-- Sample row for concrete checks: reviewer override set, score at the top of
the range. -/
def recOverride : Record :=
  { block := 1, trial := 1, audio_filename := "a.wav", target_phrase := "p",
    transcribed_text := "q", original_transcription := "q", similarity_score := 1,
    manual_correct := true, manual_reviewed := false, error := "" }

/-- C2 witness: a row with `manual_correct = true` and score `1 ≥ 1 = t`
is included. -/
theorem threshold_filter_membership_holds :
    0 ∈ filteredIndices true false 1 [recOverride] :=
  (threshold_filter_membership [recOverride] 1 0 (by decide)).2 (by decide) (by decide)

/-- C7: the resolved selection is always a member of the current filtered
sequence (when non-empty), and when the held selection is no longer in the
sequence the selection resets to the first element. -/
theorem selection_always_member (filtered : List Nat) (cur : Option Nat)
    (hne : filtered ≠ []) :
    resolveSelection filtered cur ∈ filtered
    ∧ ((∀ i ∈ filtered, cur ≠ some i) →
        resolveSelection filtered cur = filtered.headD 0) := by
  have hhead := headD_mem_of_ne_nil filtered hne
  cases cur with
  | none => exact ⟨hhead, fun _ => rfl⟩
  | some i =>
    by_cases hmem : i ∈ filtered
    · refine ⟨?_, ?_⟩
      · simp [resolveSelection, hmem]
      · intro h
        exact absurd rfl (h i hmem)
    · exact ⟨by simpa [resolveSelection, hmem] using hhead,
        fun _ => by simp [resolveSelection, hmem]⟩

/-- C7 witness: a held selection (3) that is not in the sequence `[5, 6]`
resolves to a member of the sequence. -/
theorem selection_always_member_holds :
    resolveSelection [5, 6] (some 3) ∈ [5, 6] :=
  (selection_always_member [5, 6] (some 3) (by decide)).1

/-- The batch score in terms of the batch's own cleaned transcription. -/
theorem processRow_score_spec (fsEx : String → Bool) (eng : String → Except String String)
    (ratioFn : String → String → ℚ) (row : ManifestRow) :
    (processRow fsEx eng ratioFn row).similarity_score =
      if (processRow fsEx eng ratioFn row).transcribed_text ≠ "" ∧ row.phrase ≠ "" then
        ratioFn (pyNormalize (processRow fsEx eng ratioFn row).transcribed_text)
          (pyNormalize row.phrase)
      else 0 := rfl

/-- C4: editing `transcribed_text` recomputes the score: `0` whenever the new
text or the target phrase is empty (so editing to `""` forces `0` regardless
of the target), otherwise the alignment ratio of the lower-cased stripped
pair; the batch job scores by the same rule. -/
theorem edit_recomputes_similarity (ratioFn : String → String → ℚ)
    (df : List Record) (sel : Nat) (newText : String) (hi : sel < df.length) :
    ((newText = "" ∨ (getRec df sel).target_phrase = "") →
      (getRec (updateTranscription ratioFn df sel newText) sel).similarity_score = 0)
    ∧ (newText ≠ "" → (getRec df sel).target_phrase ≠ "" →
      (getRec (updateTranscription ratioFn df sel newText) sel).similarity_score
        = ratioFn (pyNormalize newText) (pyNormalize (getRec df sel).target_phrase))
    ∧ (getRec (updateTranscription ratioFn df sel newText) sel).transcribed_text = newText
    ∧ (∀ (fsEx : String → Bool) (eng : String → Except String String) (row : ManifestRow),
        ((processRow fsEx eng ratioFn row).transcribed_text = "" ∨ row.phrase = "" →
          (processRow fsEx eng ratioFn row).similarity_score = 0)
        ∧ ((processRow fsEx eng ratioFn row).transcribed_text ≠ "" → row.phrase ≠ "" →
          (processRow fsEx eng ratioFn row).similarity_score
            = ratioFn (pyNormalize (processRow fsEx eng ratioFn row).transcribed_text)
                (pyNormalize row.phrase))) := by
  have hset : getRec (updateTranscription ratioFn df sel newText) sel
      = { getRec df sel with
          transcribed_text := newText
          similarity_score :=
            if newText ≠ "" ∧ (getRec df sel).target_phrase ≠ "" then
              ratioFn (pyNormalize newText) (pyNormalize (getRec df sel).target_phrase)
            else 0 } := by
    rw [updateTranscription]
    exact getRec_set_self _ _ _ hi
  refine ⟨?_, ?_, ?_, ?_⟩
  · intro h
    rw [hset]
    rcases h with h | h <;> simp [h]
  · intro h1 h2
    rw [hset]
    simp [h1, h2]
  · rw [hset]
  · intro fsEx eng row
    constructor
    · intro h
      rw [processRow_score_spec]
      rcases h with h | h <;> simp [h]
    · intro h1 h2
      rw [processRow_score_spec]
      simp [h1, h2]

/-- C4 witness: editing the transcription of a concrete row to `""` yields
score `0` even though the target phrase is non-empty. -/
theorem edit_recomputes_similarity_example :
    (getRec (updateTranscription (fun _ _ => (1 : ℚ)) [recOverride] 0 "") 0).similarity_score
      = 0 :=
  (edit_recomputes_similarity (fun _ _ => (1 : ℚ)) [recOverride] 0 "" (by decide)).1
    (Or.inl rfl)

/-- C5: the additive schema migration of `load_data` is idempotent, a present
`manual_correct = True` cell survives the load untouched, and a present
`original_transcription` column is not overwritten. -/
theorem load_migration_idempotent (t : RawTable) (i : Nat) (hi : i < t.rows.length)
    (hc : t.hasManualCorrect = true)
    (hv : (t.rows.getD i default).manual_correct = some true) :
    loadMigrate (loadMigrate t) = loadMigrate t
    ∧ ((loadMigrate t).rows.getD i default).manual_correct = some true
    ∧ (t.hasOriginal = true →
        ((loadMigrate t).rows.getD i default).original_transcription
          = (t.rows.getD i default).original_transcription) := by
  refine ⟨?_, ?_, ?_⟩
  · simp only [loadMigrate, List.map_map, RawTable.mk.injEq, and_true]
    refine List.map_congr_left ?_
    intro r _
    simp [migrateRow, Function.comp]
  · simp only [loadMigrate]
    rw [getD_map_of_lt _ _ _ default _ hi]
    simp only [List.getD_eq_getElem?_getD] at hv
    simp [migrateRow, hc, hv]
  · intro ho
    simp only [loadMigrate]
    rw [getD_map_of_lt _ _ _ default _ hi]
    simp [migrateRow, ho]

/-- Concrete one-row results table that already carries
`manual_correct = True`. -/
def rawTableSample : RawTable :=
  { rows := [{ block := 1, trial := 1, audio_filename := "a.wav", target_phrase := "p",
               transcribed_text := "x", similarity_score := 1, error := "",
               manual_correct := some true, manual_reviewed := none,
               original_transcription := none }]
    hasManualCorrect := true
    hasManualReviewed := false
    hasOriginal := false }

/-- C5 witness: loading the sample table keeps `manual_correct = True`. -/
theorem load_migration_idempotent_example :
    ((loadMigrate rawTableSample).rows.getD 0 default).manual_correct = some true :=
  (load_migration_idempotent rawTableSample 0 (by decide) rfl (by decide)).2.1

/-- Per-row shape of the batch output when the audio file is missing. -/
theorem processRow_missing (fsEx : String → Bool) (eng : String → Except String String)
    (ratioFn : String → String → ℚ) (row : ManifestRow)
    (hmiss : fsEx (normSlashes row.audio_filename) = false) :
    processRow fsEx eng ratioFn row =
      { block := row.block, trial := row.trial,
        audio_filename := normSlashes row.audio_filename,
        target_phrase := row.phrase, transcribed_text := "",
        similarity_score := 0, error := "Audio file not found" } := by
  simp [processRow, hmiss]

/-- Per-row shape of the batch output when the engine raises. -/
theorem processRow_engine_error (fsEx : String → Bool) (eng : String → Except String String)
    (ratioFn : String → String → ℚ) (row : ManifestRow) (e : String)
    (hex : fsEx (normSlashes row.audio_filename) = true)
    (herr : eng (normSlashes row.audio_filename) = Except.error e) :
    processRow fsEx eng ratioFn row =
      { block := row.block, trial := row.trial,
        audio_filename := normSlashes row.audio_filename,
        target_phrase := row.phrase, transcribed_text := "",
        similarity_score := 0, error := "Error processing audio file: " ++ e } := by
  simp [processRow, hex, herr]

/-- C6: a manifest row whose audio file does not exist yields a results row
with `error = "Audio file not found"`, empty transcription and score `0`; the
batch emits exactly one results row per manifest row (no abort), and an
engine exception on an existing file is likewise recorded per-row. -/
theorem missing_audio_recorded (fsEx : String → Bool) (eng : String → Except String String)
    (ratioFn : String → String → ℚ) (rows : List ManifestRow) (i : Nat)
    (hi : i < rows.length)
    (hmiss : fsEx (normSlashes ((rows.getD i default).audio_filename)) = false) :
    (processBatch fsEx eng ratioFn rows).length = rows.length
    ∧ (processBatch fsEx eng ratioFn rows).getD i default =
      { block := (rows.getD i default).block
        trial := (rows.getD i default).trial
        audio_filename := normSlashes ((rows.getD i default).audio_filename)
        target_phrase := (rows.getD i default).phrase
        transcribed_text := ""
        similarity_score := 0
        error := "Audio file not found" }
    ∧ (∀ (j : Nat) (e : String), j < rows.length →
        fsEx (normSlashes ((rows.getD j default).audio_filename)) = true →
        eng (normSlashes ((rows.getD j default).audio_filename)) = Except.error e →
        (processBatch fsEx eng ratioFn rows).getD j default =
          { block := (rows.getD j default).block
            trial := (rows.getD j default).trial
            audio_filename := normSlashes ((rows.getD j default).audio_filename)
            target_phrase := (rows.getD j default).phrase
            transcribed_text := ""
            similarity_score := 0
            error := "Error processing audio file: " ++ e }) := by
  refine ⟨by simp [processBatch], ?_, ?_⟩
  · rw [processBatch, getD_map_of_lt _ _ _ default _ hi]
    exact processRow_missing fsEx eng ratioFn _ hmiss
  · intro j e hj hex herr
    rw [processBatch, getD_map_of_lt _ _ _ default _ hj]
    exact processRow_engine_error fsEx eng ratioFn _ e hex herr

/-- C6 witness: the spec's end-to-end example — manifest row
`{audio_filename: "missing.wav", phrase: "open the door", block: 1, trial: 1}`
with no such file produces the documented error row. -/
theorem missing_audio_recorded_example :
    (processBatch (fun _ => false) (fun _ => Except.ok "") (fun _ _ => 0)
        [{ audio_filename := "missing.wav", phrase := "open the door",
           block := "1", trial := "1" }]).getD 0 default =
      { block := "1", trial := "1", audio_filename := "missing.wav",
        target_phrase := "open the door", transcribed_text := "",
        similarity_score := 0, error := "Audio file not found" } :=
  (missing_audio_recorded (fun _ => false) (fun _ => Except.ok "") (fun _ _ => 0)
    [{ audio_filename := "missing.wav", phrase := "open the door",
       block := "1", trial := "1" }] 0 (by decide) rfl).2.1

/-- C8: evaluation of the normalization at a raw engine output containing an
underscore and a curly quote.  The inline comment (and the spec) promise that
only alphanumeric characters and whitespace remain, but the regex class `\w`
also matches `_`, which is neither alphanumeric nor whitespace (it is Unicode
connector punctuation): the underscore survives, the curly quote is removed. -/
theorem cleanText_keeps_underscore :
    cleanText "It’s a_b." = "its a_b"
    ∧ '_'.isAlphanum = false
    ∧ '_'.isWhitespace = false
    ∧ cleanText "It’s a_b." ≠ "its ab" := by
  refine ⟨by decide, by decide, by decide, by decide⟩

/-- C9 counterexample: the batch step does modify the manifest path — a
manifest `audio_filename` containing a backslash is rewritten
(`audio\t1.wav` becomes `audio/t1.wav`) both for resolution and in the
results row, so neither is "exactly the manifest's value". -/
theorem manifest_path_rewritten :
    (processRow (fun _ => false) (fun _ => Except.ok "") (fun _ _ => 0)
        { audio_filename := "audio\\t1.wav", phrase := "p",
          block := "1", trial := "1" }).audio_filename
      = "audio/t1.wav"
    ∧ (processRow (fun _ => false) (fun _ => Except.ok "") (fun _ _ => 0)
        { audio_filename := "audio\\t1.wav", phrase := "p",
          block := "1", trial := "1" }).audio_filename
      ≠ "audio\\t1.wav" := by
  refine ⟨by decide, by decide⟩

/-- C9 (amended): the batch step resolves the audio path as the manifest value
with backslashes normalized to forward slashes and applies no other repair —
the only path it ever consults (for existence or transcription) is that
normalized value, the results row records exactly that value, and when the
manifest value contains no backslash it is used exactly as given. -/
theorem batch_path_no_repair (fsEx fsEx2 : String → Bool)
    (eng eng2 : String → Except String String) (ratioFn : String → String → ℚ)
    (row : ManifestRow)
    (hfs : fsEx (normSlashes row.audio_filename) = fsEx2 (normSlashes row.audio_filename))
    (heng : eng (normSlashes row.audio_filename) = eng2 (normSlashes row.audio_filename)) :
    (processRow fsEx eng ratioFn row).audio_filename = normSlashes row.audio_filename
    ∧ processRow fsEx eng ratioFn row = processRow fsEx2 eng2 ratioFn row
    ∧ ((∀ c ∈ row.audio_filename.data, c ≠ '\\') →
        (processRow fsEx eng ratioFn row).audio_filename = row.audio_filename) := by
  refine ⟨rfl, ?_, ?_⟩
  · simp only [processRow, hfs, heng]
  · intro h
    show normSlashes row.audio_filename = row.audio_filename
    have hmap : row.audio_filename.data.map (fun c => if c = '\\' then '/' else c)
        = row.audio_filename.data := by
      conv_rhs => rw [← List.map_id row.audio_filename.data]
      exact List.map_congr_left (fun c hc => by simp [h c hc])
    simp [normSlashes, hmap]

/-- C9 amended-claim witness: on a backslash-free manifest path the results
row carries exactly the manifest's value. -/
theorem batch_path_no_repair_example :
    (processRow (fun _ => false) (fun _ => Except.ok "") (fun _ _ => 0)
        { audio_filename := "t1.wav", phrase := "p",
          block := "1", trial := "1" }).audio_filename = "t1.wav" :=
  (batch_path_no_repair (fun _ => false) (fun _ => false) (fun _ => Except.ok "")
    (fun _ => Except.ok "") (fun _ _ => 0)
    { audio_filename := "t1.wav", phrase := "p", block := "1", trial := "1" }
    rfl rfl).2.2 (by decide)

/-- C10: participant discovery — an empty list when the data directory does
not exist; otherwise exactly the all-digit-named directory entries (a
non-digit character excludes an entry, non-directories are excluded), in
ascending lexicographic string order. -/
theorem participant_discovery (entries : List DirEntry) :
    getParticipants false entries = []
    ∧ (getParticipants true entries).Perm
        ((entries.filter (fun e => e.isDir && isDigitName e.name)).map DirEntry.name)
    ∧ (∀ x, x ∈ getParticipants true entries ↔
        ∃ e, e ∈ entries ∧ e.name = x ∧ e.isDir = true ∧ x ≠ ""
          ∧ ∀ c ∈ x.data, c.isDigit = true)
    ∧ (getParticipants true entries).Pairwise (fun a b => a ≤ b) := by
  have hunfold : getParticipants true entries =
      ((entries.filter (fun e => e.isDir && isDigitName e.name)).map DirEntry.name).mergeSort
        (fun a b => decide (a ≤ b)) := by
    simp [getParticipants]
  have hperm : (getParticipants true entries).Perm
      ((entries.filter (fun e => e.isDir && isDigitName e.name)).map DirEntry.name) := by
    rw [hunfold]
    exact List.mergeSort_perm _ _
  refine ⟨rfl, hperm, ?_, ?_⟩
  · intro x
    rw [hperm.mem_iff]
    simp only [List.mem_map, List.mem_filter, Bool.and_eq_true, isDigitName,
      decide_eq_true_eq, List.all_eq_true]
    constructor
    · rintro ⟨e, ⟨he, hdir, hne, hdig⟩, rfl⟩
      exact ⟨e, he, rfl, hdir, hne, hdig⟩
    · rintro ⟨e, he, rfl, hdir, hne, hdig⟩
      exact ⟨e, ⟨he, hdir, hne, hdig⟩, rfl⟩
  · have htrans : ∀ a b c : String, (fun a b : String => decide (a ≤ b)) a b →
        (fun a b : String => decide (a ≤ b)) b c →
        (fun a b : String => decide (a ≤ b)) a c := by
      intro a b c hab hbc
      simp only [decide_eq_true_eq] at hab hbc ⊢
      exact le_trans hab hbc
    have htotal : ∀ a b : String,
        ((fun a b : String => decide (a ≤ b)) a b
          || (fun a b : String => decide (a ≤ b)) b a) = true := by
      intro a b
      rcases le_total a b with h | h <;> simp [h]
    rw [hunfold]
    exact (List.sorted_mergeSort htrans htotal _).imp (fun h => of_decide_eq_true h)

/-- C10 witness: a missing data directory yields no participants, applied at a
concrete entry list. -/
theorem participant_discovery_example :
    getParticipants false [{ name := "101", isDir := true }] = [] :=
  (participant_discovery [{ name := "101", isDir := true }]).1

/-- C3: the displayed sequence (the filtered indices under the active sort
mode) is a permutation of the filtered indices, and pairwise in display
order: with the priority toggle on, no reviewed row precedes an unreviewed
one (unreviewed first) and rows of equal reviewed status are ascending by
`(block, trial)`; with the toggle off, all rows are ascending by
`(block, trial)`. -/
theorem display_sort_order (showLowConf hideReviewed priority : Bool) (t : ℚ)
    (df : List Record) :
    (sortIndices df priority (filteredIndices showLowConf hideReviewed t df)).Perm
      (filteredIndices showLowConf hideReviewed t df)
    ∧ (sortIndices df priority (filteredIndices showLowConf hideReviewed t df)).Pairwise
        (fun i j =>
          (priority = true →
            ((getRec df i).manual_reviewed = true → (getRec df j).manual_reviewed = true)
            ∧ ((getRec df i).manual_reviewed = (getRec df j).manual_reviewed →
                blockTrialLe (getRec df i) (getRec df j)))
          ∧ (priority = false → blockTrialLe (getRec df i) (getRec df j))) := by
  constructor
  · exact List.mergeSort_perm _ _
  · have htrans : ∀ a b c : Nat,
        sortKeyLe priority (getRec df a) (getRec df b) →
        sortKeyLe priority (getRec df b) (getRec df c) →
        sortKeyLe priority (getRec df a) (getRec df c) := by
      intro a b c hab hbc
      simp only [sortKeyLe, decide_eq_true_eq] at hab hbc ⊢
      omega
    have htotal : ∀ a b : Nat,
        (sortKeyLe priority (getRec df a) (getRec df b)
          || sortKeyLe priority (getRec df b) (getRec df a)) = true := by
      intro a b
      simp only [sortKeyLe, Bool.or_eq_true, decide_eq_true_eq]
      omega
    refine (List.sorted_mergeSort htrans htotal _).imp ?_
    intro i j hij
    simp only [sortKeyLe, decide_eq_true_eq] at hij
    constructor
    · rintro rfl
      constructor
      · intro hri
        cases hrj : (getRec df j).manual_reviewed with
        | true => rfl
        | false => simp [revRank, hri, hrj] at hij
      · intro heq
        cases hri : (getRec df i).manual_reviewed with
        | true =>
          rw [hri] at heq
          simp only [revRank, hri, ← heq, Bool.and_self] at hij
          simpa [blockTrialLe] using hij
        | false =>
          rw [hri] at heq
          simp only [revRank, hri, ← heq, Bool.and_self, Bool.and_false] at hij
          simpa [blockTrialLe] using hij
    · rintro rfl
      simp only [revRank, Bool.false_and] at hij
      simpa [blockTrialLe] using hij

/-- Three rows for concrete checks: A and C unreviewed, B reviewed. -/
def recA : Record :=
  { block := 1, trial := 1, audio_filename := "a1.wav", target_phrase := "p1",
    transcribed_text := "p1", original_transcription := "p1", similarity_score := 1,
    manual_correct := false, manual_reviewed := false, error := "" }

/-- Row B: reviewed. -/
def recB : Record :=
  { recA with trial := 2, manual_reviewed := true }

/-- Row C: unreviewed. -/
def recC : Record :=
  { recA with trial := 3 }

/-- C3 witness: the displayed sequence of the three-row table in priority mode
is a permutation of its filtered indices. -/
theorem display_sort_order_example :
    (sortIndices [recA, recB, recC] true
        (filteredIndices true false 1 [recA, recB, recC])).Perm
      (filteredIndices true false 1 [recA, recB, recC]) :=
  (display_sort_order true false true 1 [recA, recB, recC]).1

/-- C1: marking the selected record reviewed (false → true) writes the flag
and then scans the filtered sequence forward from the selected record's
position: if every later entry is already reviewed the selection stays on the
just-reviewed record, and otherwise the first later entry whose (updated) row
is unreviewed becomes the selection.  The filtered sequence is decomposed as
`front ++ sel :: rest` with `sel ∉ front`, so `sel` sits at its Python
`list.index` position and `rest` is the part scanned. -/
theorem mark_reviewed_auto_advance (df : List Record) (front rest : List Nat) (sel : Nat)
    (hfront : sel ∉ front)
    (hprev : (getRec df sel).manual_reviewed = false) :
    (updateReviewed df (front ++ sel :: rest) sel true).1 = setReviewed df sel true
    ∧ ((∀ i ∈ rest, (getRec (setReviewed df sel true) i).manual_reviewed = true) →
        (updateReviewed df (front ++ sel :: rest) sel true).2 = sel)
    ∧ (∀ r1 j r2, rest = r1 ++ j :: r2 →
        (∀ k ∈ r1, (getRec (setReviewed df sel true) k).manual_reviewed = true) →
        (getRec (setReviewed df sel true) j).manual_reviewed = false →
        (updateReviewed df (front ++ sel :: rest) sel true).2 = j) := by
  have hidx := indexOf?_append_cons front rest sel hfront
  have hdrop := drop_after_sel front rest sel
  refine ⟨rfl, ?_, ?_⟩
  · intro hall
    have hfind : rest.find?
        (fun i => !(getRec (setReviewed df sel true) i).manual_reviewed) = none :=
      List.find?_eq_none.2 (fun x hx => by simp [hall x hx])
    simp [updateReviewed, hidx, hdrop, hfind]
  · intro r1 j r2 hrest hr1 hj
    subst hrest
    have h1 : r1.find?
        (fun i => !(getRec (setReviewed df sel true) i).manual_reviewed) = none :=
      List.find?_eq_none.2 (fun x hx => by simp [hr1 x hx])
    have hfind : (r1 ++ j :: r2).find?
        (fun i => !(getRec (setReviewed df sel true) i).manual_reviewed) = some j := by
      rw [List.find?_append, h1]
      simp [hj]
    simp [updateReviewed, hidx, hdrop, hfind]

/-- C1 witness: the spec's example — filtered order
`[A(reviewed=F), B(reviewed=T), C(reviewed=F)]` at indices `[0, 1, 2]`;
marking A (index 0) reviewed selects C (index 2), skipping B. -/
theorem mark_reviewed_auto_advance_example :
    (updateReviewed [recA, recB, recC] [0, 1, 2] 0 true).2 = 2 :=
  (mark_reviewed_auto_advance [recA, recB, recC] [] [1, 2] 0 (by decide)
    (by decide)).2.2 [1] 2 [] rfl (by decide) (by decide)

end AudioCheck
